import Mathlib

/-!
Verification of the autotranslate translation-job pipeline.

This file gives a shallow embedding, in Lean 4, of the core of the
autotranslate repository (autotranslate.py and autotranslate_web_server.py):
the filename sanitizer, the path deriver, the per-file processing pipeline,
the directory monitor's per-file exception policy, the quota-renewal
countdown calculator, and the web server's scoreboard key generator.
External collaborators (the DeepL client, the GoogleTranslator short-text
translator, the pypdf merge primitive, the filesystem and the logging
subsystem) are modelled at their interface boundary: their behaviour is an
explicit parameter (an oracle value) of each embedded function, and their
observable effects (files written or deleted, handlers opened or closed,
callbacks fired) are threaded through explicit state.
-/

/- ---------------------------------------------------------------------
Character-level helpers for the filename sanitizer (clean_filename).
--------------------------------------------------------------------- -/

/-- Membership in the sanitizer's allowed character set.  The source sets
`safechars = string.ascii_letters + string.digits + "-_."`; in code points
that is 65..90 (A-Z), 97..122 (a-z), 48..57 (0-9), 45 (-), 95 (_), 46 (.). -/
def isSafeChar (c : Char) : Bool :=
  (65 ≤ c.toNat && c.toNat ≤ 90) || (97 ≤ c.toNat && c.toNat ≤ 122) ||
  (48 ≤ c.toNat && c.toNat ≤ 57) || c.toNat == 45 || c.toNat == 95 || c.toNat == 46

/-- Whitespace as recognised by Python's str.strip and the regex \s on str:
ASCII whitespace, the C1 separators, NEL and NBSP (further Unicode space
code points exist but behave identically for every statement proved here,
because safe characters are never whitespace and the final filter step
discards whitespace in any case). -/
def isPySpace (c : Char) : Bool :=
  c == ' ' || c == '\t' || c == '\n' || c == '\x0b' || c == '\x0c' || c == '\x0d' ||
  c == '\x1c' || c == '\x1d' || c == '\x1e' || c == '\x1f' || c == '\x85' || c == '\u00A0'

/-- Trim whitespace from both ends of a character list (Python str.strip). -/
def pyStrip (l : List Char) : List Char :=
  ((l.dropWhile isPySpace).reverse.dropWhile isPySpace).reverse

/-- Collapse every maximal run of whitespace into one single space, the
effect of re.sub(r"\s+", " ", name).  The accumulator records whether the
previously emitted character came from a whitespace run. -/
def collapseWsAux : Bool → List Char → List Char
  | _, [] => []
  | prevSpace, c :: cs =>
    if isPySpace c then
      if prevSpace then collapseWsAux true cs
      else ' ' :: collapseWsAux true cs
    else c :: collapseWsAux false cs

/-- Whitespace-run collapsing over a whole list. -/
def collapseWs (l : List Char) : List Char := collapseWsAux false l

/-- Manual character substitutions performed before transliteration:
name.replace("Å", "Aa"), name.replace("å", "aa"), name.replace("¢", "ø").
The three replacements neither produce nor consume each other's targets,
so their sequential composition equals this per-character expansion. -/
def charExpand (c : Char) : List Char :=
  if c = 'Å' then ['A', 'a']
  else if c = 'å' then ['a', 'a']
  else if c = '¢' then ['ø']
  else [c]

/-- Model of the external unidecode transliteration library (an external
collaborator; spec §4.1 step 4).  ASCII code points pass through unchanged;
a small table covers the non-ASCII characters exercised in this
development; remaining unknown characters are dropped, as the library does
in its default error mode. -/
def unidecodeChar (c : Char) : List Char :=
  if c.toNat < 128 then [c]
  else if c = 'é' then ['e']
  else if c = 'É' then ['E']
  else if c = 'è' then ['e']
  else if c = 'ê' then ['e']
  else if c = 'ü' then ['u']
  else if c = 'ö' then ['o']
  else if c = 'ä' then ['a']
  else if c = 'á' then ['a']
  else if c = 'ø' then ['o']
  else if c = 'ñ' then ['n']
  else if c = 'ç' then ['c']
  else []

/- ---------------------------------------------------------------------
Pathlib fragments: final component, name, stem and suffix of a path.
--------------------------------------------------------------------- -/

/-- Characters after the last '/' of a path, the final path component.
Modelled for paths that do not end in a separator, which is every path the
program builds (directory joins and names yielded by iterdir). -/
def lastComponentChars (l : List Char) : List Char :=
  (l.reverse.takeWhile (fun c => !(c == '/'))).reverse

/-- Name of a path component as pathlib computes it: the lone component
"." is parsed away by pathlib, giving the empty name. -/
def pathNameChars (l : List Char) : List Char :=
  if l = ['.'] then [] else l

/-- Split a name into stem and suffix as pathlib does: the suffix starts at
the last dot, provided that dot is neither the first nor the last character
of the name; otherwise the suffix is empty. -/
def splitExtChars (name : List Char) : List Char × List Char :=
  let tailLen := (name.reverse.takeWhile (fun c => !(c == '.'))).length
  let i := name.length - 1 - tailLen
  if name.contains '.' && decide (0 < i) && decide (i < name.length - 1) then
    (name.take i, name.drop i)
  else (name, [])

/-- Name (final component) of a path string. -/
def pname (s : String) : String :=
  String.mk (pathNameChars (lastComponentChars s.data))

/-- Stem (name without suffix) of a path string, as Path(s).stem. -/
def pstem (s : String) : String :=
  String.mk (splitExtChars (pathNameChars (lastComponentChars s.data))).1

/-- Suffix (extension, dot included) of a path string, as Path(s).suffix. -/
def psuffix (s : String) : String :=
  String.mk (splitExtChars (pathNameChars (lastComponentChars s.data))).2

/- ---------------------------------------------------------------------
The filename sanitizer clean_filename.
--------------------------------------------------------------------- -/

/-- Error raised by the sanitizer when no safe name can be produced. -/
inductive CleanError where
  | filenameCleanseError
deriving DecidableEq, Repr

/-- Body of clean_filename before the final validity check: take stem and
suffix of the final component, trim edge whitespace from the stem, rejoin,
collapse internal whitespace and turn spaces into underscores, apply the
manual substitutions, transliterate, and keep only allowed characters. -/
def cleansedChars (file : String) : List Char :=
  let nm := pathNameChars (lastComponentChars file.data)
  let se := splitExtChars nm
  let joined := pyStrip se.1 ++ se.2
  let collapsed := collapseWs joined
  let underscored := collapsed.map (fun c => if c == ' ' then '_' else c)
  let expanded := underscored.flatMap charExpand
  let translit := expanded.flatMap unidecodeChar
  translit.filter isSafeChar

/-- The sanitizer clean_filename: returns the cleansed name, or raises
FilenameCleanseError when the cleansed name is empty or equals "." or "..". -/
def clean_filename (file : String) : Except CleanError String :=
  let r := cleansedChars file
  if r = [] ∨ r = ['.'] ∨ r = ['.', '.'] then
    .error .filenameCleanseError
  else
    .ok (String.mk r)

instance {ε α : Type} [DecidableEq ε] [DecidableEq α] : DecidableEq (Except ε α)
  | .ok a, .ok b =>
    if h : a = b then .isTrue (by rw [h]) else .isFalse (fun hh => h (by injection hh))
  | .error a, .error b =>
    if h : a = b then .isTrue (by rw [h]) else .isFalse (fun hh => h (by injection hh))
  | .ok _, .error _ => .isFalse (fun hh => Except.noConfusion hh)
  | .error _, .ok _ => .isFalse (fun hh => Except.noConfusion hh)

/- ---------------------------------------------------------------------
Supporting lemmas about the sanitizer.
--------------------------------------------------------------------- -/

/-- Safe characters have code points below 128. -/
theorem isSafeChar_ascii {c : Char} (h : isSafeChar c = true) : c.toNat < 128 := by
  simp only [isSafeChar, Bool.or_eq_true, Bool.and_eq_true, decide_eq_true_eq,
    Nat.beq_eq_true_eq] at h
  omega

/-- Safe characters are never whitespace. -/
theorem isSafeChar_not_space {c : Char} (h : isSafeChar c = true) : isPySpace c = false := by
  have h' := h
  simp only [isSafeChar, Bool.or_eq_true, Bool.and_eq_true, decide_eq_true_eq,
    Nat.beq_eq_true_eq] at h'
  simp only [isPySpace, Bool.or_eq_false_iff, beq_eq_false_iff_ne, ne_eq]
  refine ⟨⟨⟨⟨⟨⟨⟨⟨⟨⟨⟨?_, ?_⟩, ?_⟩, ?_⟩, ?_⟩, ?_⟩, ?_⟩, ?_⟩, ?_⟩, ?_⟩, ?_⟩, ?_⟩ <;>
    rintro rfl <;> simp_all

/-- Safe characters are not the path separator. -/
theorem isSafeChar_not_slash {c : Char} (h : isSafeChar c = true) : (c == '/') = false := by
  simp only [isSafeChar, Bool.or_eq_true, Bool.and_eq_true, decide_eq_true_eq,
    Nat.beq_eq_true_eq] at h
  simp only [beq_eq_false_iff_ne, ne_eq]
  rintro rfl
  simp_all

/-- Safe characters are not a space. -/
theorem isSafeChar_not_blank {c : Char} (h : isSafeChar c = true) : (c == ' ') = false := by
  have := isSafeChar_not_space h
  simp only [isPySpace, Bool.or_eq_false_iff] at this
  exact this.1.1.1.1.1.1.1.1.1.1.1

/-- dropWhile is the identity when no element satisfies the predicate. -/
theorem dropWhile_eq_self_of_none {p : Char → Bool} :
    ∀ {l : List Char}, (∀ c ∈ l, p c = false) → l.dropWhile p = l := by
  intro l h
  cases l with
  | nil => rfl
  | cons c cs =>
    rw [List.dropWhile_cons, h c (by simp)]
    simp

/-- takeWhile is the identity when every element satisfies the predicate. -/
theorem takeWhile_eq_self_of_all {p : Char → Bool} :
    ∀ {l : List Char}, (∀ c ∈ l, p c = true) → l.takeWhile p = l := by
  intro l
  induction l with
  | nil => intro _; rfl
  | cons c cs ih =>
    intro h
    rw [List.takeWhile_cons, h c (by simp)]
    simp [ih fun x hx => h x (by simp [hx])]

/-- pyStrip is the identity on whitespace-free lists. -/
theorem pyStrip_eq_self {l : List Char} (h : ∀ c ∈ l, isPySpace c = false) :
    pyStrip l = l := by
  unfold pyStrip
  rw [dropWhile_eq_self_of_none h,
    dropWhile_eq_self_of_none (fun c hc => h c (List.mem_reverse.mp hc)),
    List.reverse_reverse]

/-- collapseWsAux is the identity on whitespace-free lists. -/
theorem collapseWsAux_eq_self {l : List Char} (h : ∀ c ∈ l, isPySpace c = false) :
    ∀ b, collapseWsAux b l = l := by
  induction l with
  | nil => intro b; rfl
  | cons c cs ih =>
    intro b
    unfold collapseWsAux
    simp [h c (by simp), ih fun x hx => h x (by simp [hx])]

/-- flatMap with a function that is pointwise the singleton is the identity. -/
theorem flatMap_singleton_of {f : Char → List Char} :
    ∀ {l : List Char}, (∀ c ∈ l, f c = [c]) → l.flatMap f = l := by
  intro l
  induction l with
  | nil => intro _; rfl
  | cons c cs ih =>
    intro h
    rw [List.flatMap_cons, h c (by simp), ih fun x hx => h x (by simp [hx])]
    rfl

/-- charExpand leaves ASCII characters alone. -/
theorem charExpand_ascii {c : Char} (h : c.toNat < 128) : charExpand c = [c] := by
  have h1 : c ≠ 'Å' := by rintro rfl; revert h; decide
  have h2 : c ≠ 'å' := by rintro rfl; revert h; decide
  have h3 : c ≠ '¢' := by rintro rfl; revert h; decide
  simp [charExpand, h1, h2, h3]

/-- unidecodeChar leaves ASCII characters alone. -/
theorem unidecodeChar_ascii {c : Char} (h : c.toNat < 128) : unidecodeChar c = [c] := by
  rw [unidecodeChar, if_pos h]

/-- Stem and suffix always concatenate back to the whole name. -/
theorem splitExtChars_append (name : List Char) :
    (splitExtChars name).1 ++ (splitExtChars name).2 = name := by
  unfold splitExtChars
  simp only
  split
  · exact List.take_append_drop _ _
  · simp

/-- Characters of the stem belong to the name. -/
theorem splitExtChars_fst_subset {name : List Char} {c : Char}
    (h : c ∈ (splitExtChars name).1) : c ∈ name := by
  unfold splitExtChars at h
  simp only at h
  split at h
  · exact List.take_subset _ _ h
  · exact h

/-- Running the cleansing pipeline on an already-safe name (one made only
of allowed characters, other than the lone component ".") returns it
unchanged. -/
theorem cleansedChars_of_safe {r : List Char} (hall : ∀ c ∈ r, isSafeChar c = true)
    (hdot : r ≠ ['.']) : cleansedChars (String.mk r) = r := by
  unfold cleansedChars
  simp only
  have hlast : lastComponentChars r = r := by
    unfold lastComponentChars
    rw [takeWhile_eq_self_of_all (fun c hc => by
      rw [isSafeChar_not_slash (hall c (List.mem_reverse.mp hc))]; rfl),
      List.reverse_reverse]
  rw [hlast]
  have hname : pathNameChars r = r := by unfold pathNameChars; rw [if_neg hdot]
  rw [hname]
  have hstemsafe : ∀ c ∈ (splitExtChars r).1, isSafeChar c = true :=
    fun c hc => hall c (splitExtChars_fst_subset hc)
  rw [pyStrip_eq_self (fun c hc => isSafeChar_not_space (hstemsafe c hc)),
    splitExtChars_append]
  rw [show collapseWs r = r from
    collapseWsAux_eq_self (fun c hc => isSafeChar_not_space (hall c hc)) false]
  have hmap : r.map (fun c => if c == ' ' then '_' else c) = r := by
    conv_rhs => rw [show r = r.map id from (List.map_id r).symm]
    exact List.map_congr_left (fun c hc => by simp [isSafeChar_not_blank (hall c hc)])
  rw [hmap]
  rw [flatMap_singleton_of (fun c hc => charExpand_ascii (isSafeChar_ascii (hall c hc)))]
  rw [flatMap_singleton_of (fun c hc => unidecodeChar_ascii (isSafeChar_ascii (hall c hc)))]
  exact List.filter_eq_self.mpr hall

/-- Every character of a cleansed name is in the allowed set, because the
last pipeline step keeps exactly the allowed characters. -/
theorem cleansedChars_all_safe (file : String) :
    ∀ c ∈ cleansedChars file, isSafeChar c = true := by
  unfold cleansedChars
  simp only
  intro c hc
  exact (List.mem_filter.mp hc).2

/-- C4 (amended): for every input filename, clean_filename either returns a
non-empty string consisting only of characters in [A-Za-z0-9_.-] or raises
FilenameCleanseError; it raises exactly when the cleansed result is empty
or equals "." or ".."; every returned value is non-empty and drawn from the
allowed set.  (The original claim's final clause — that any filename
containing at least one allowed character yields a returned value — is
refuted by c4_counterexample below.) -/
theorem c4_sanitizer_spec (file : String) :
    (clean_filename file = .error .filenameCleanseError ↔
      cleansedChars file = [] ∨ cleansedChars file = ['.'] ∨
        cleansedChars file = ['.', '.']) ∧
    ∀ s, clean_filename file = .ok s → s ≠ "" ∧ s.data.all isSafeChar = true := by
  constructor
  · unfold clean_filename
    simp only
    split
    · next hcond =>
      exact iff_of_true rfl hcond
    · next hcond =>
      constructor
      · intro h; exact absurd h (by simp)
      · intro h; exact absurd h hcond
  · intro s hs
    unfold clean_filename at hs
    simp only at hs
    split at hs
    · exact absurd hs (by simp)
    · next hcond =>
      push_neg at hcond
      have hmk : String.mk (cleansedChars file) = s := by
        injection hs
      constructor
      · intro hemp
        apply hcond.1
        have : (cleansedChars file) = s.data := by rw [← hmk]
        rw [this, hemp]
      · rw [← hmk]
        simp only [String.data]
        exact List.all_eq_true.mpr (cleansedChars_all_safe file)

/-- C4 counterexample to the claim as frozen: the filename ".." contains an
allowed character (the dot), yet clean_filename raises rather than
returning a non-empty allowed-only string. -/
theorem c4_counterexample :
    "..".data.any isSafeChar = true ∧
    clean_filename ".." = .error .filenameCleanseError := by decide

/-- Witness for c4_sanitizer_spec at the concrete filename "a b.pdf". -/
theorem c4_sanitizer_spec_witness :
    "a_b.pdf" ≠ "" ∧ "a_b.pdf".data.all isSafeChar = true :=
  (c4_sanitizer_spec "a b.pdf").2 "a_b.pdf" (by decide)

/-- C10: the sanitizer is idempotent: whenever clean_filename succeeds,
running it again on its own result returns that result unchanged. -/
theorem c10_sanitizer_idempotent (file s : String) (h : clean_filename file = .ok s) :
    clean_filename s = .ok s := by
  unfold clean_filename at h
  simp only at h
  split at h
  · exact absurd h (by simp)
  · next hcond =>
    push_neg at hcond
    have hmk : String.mk (cleansedChars file) = s := by injection h
    have hkey : cleansedChars s = cleansedChars file := by
      rw [← hmk]
      exact cleansedChars_of_safe (cleansedChars_all_safe file) hcond.2.1
    unfold clean_filename
    simp only
    rw [hkey]
    split
    · next hc =>
      exact absurd hc (by push_neg; exact hcond)
    · rw [hmk]

/-- Witness for c10_sanitizer_idempotent at the concrete filename "a b.pdf". -/
theorem c10_sanitizer_idempotent_witness : clean_filename "a_b.pdf" = .ok "a_b.pdf" :=
  c10_sanitizer_idempotent "a b.pdf" "a_b.pdf" (by decide)

/- ---------------------------------------------------------------------
The renewal countdown calculator num_seconds_till_renewal.

Dates and times are modelled in UTC at second resolution (pendulum.now
also carries microseconds; they only shift the result by a fraction of a
second and play no part in any claim).  pendulum.datetime validates its
day-of-month argument and raises ValueError when the day does not exist
in the given month; add(months=1) advances the month and clamps the day
to the length of the target month; add(days=1) moves to the next
calendar day; subtraction of two UTC instants is their difference in
epoch seconds.
--------------------------------------------------------------------- -/

/-- Gregorian leap-year rule. -/
def isLeapYear (y : Nat) : Bool :=
  (y % 4 == 0 && y % 100 != 0) || y % 400 == 0

/-- Number of days in a month of the Gregorian calendar. -/
def daysInMonth (y m : Nat) : Nat :=
  if m = 2 then (if isLeapYear y then 29 else 28)
  else if m = 4 ∨ m = 6 ∨ m = 9 ∨ m = 11 then 30
  else 31

/-- A timezone-aware instant (UTC), second resolution. -/
structure PDateTime where
  year : Nat
  month : Nat
  day : Nat
  hour : Nat
  minute : Nat
  second : Nat
deriving DecidableEq, Repr

/-- Day count of a proleptic-Gregorian civil date (era-based algorithm);
only differences of this count are ever used. -/
def daysFromCivil (y m d : Nat) : Nat :=
  let y2 := if m ≤ 2 then y - 1 else y
  let era := y2 / 400
  let yoe := y2 % 400
  let mp := if 2 < m then m - 3 else m + 9
  let doy := (153 * mp + 2) / 5 + d - 1
  let doe := yoe * 365 + yoe / 4 - yoe / 100 + doy
  era * 146097 + doe

/-- Epoch-style second count of an instant; only differences are used. -/
def toSeconds (t : PDateTime) : Nat :=
  daysFromCivil t.year t.month t.day * 86400 +
    t.hour * 3600 + t.minute * 60 + t.second

/-- The ValueError raised by pendulum.datetime on an invalid civil date. -/
inductive PyValueError where
  | valueError
deriving DecidableEq, Repr

/-- pendulum.datetime(year, month, day, tz="UTC"): midnight of the given
civil date, after validating month and day ranges. -/
def pendulum_datetime (y m d : Nat) : Except PyValueError PDateTime :=
  if 1 ≤ m ∧ m ≤ 12 ∧ 1 ≤ d ∧ d ≤ daysInMonth y m then
    .ok ⟨y, m, d, 0, 0, 0⟩
  else .error .valueError

/-- pendulum add(months=1): advance one month, clamping the day to the
length of the target month. -/
def addOneMonth (t : PDateTime) : PDateTime :=
  let y := if t.month = 12 then t.year + 1 else t.year
  let m := if t.month = 12 then 1 else t.month + 1
  { t with year := y, month := m, day := min t.day (daysInMonth y m) }

/-- pendulum add(days=1): the next calendar day. -/
def addOneDay (t : PDateTime) : PDateTime :=
  if t.day < daysInMonth t.year t.month then { t with day := t.day + 1 }
  else if t.month = 12 then { t with year := t.year + 1, month := 1, day := 1 }
  else { t with month := t.month + 1, day := 1 }

/-- num_seconds_till_renewal: seconds until the next occurrence of the
configured renewal day-of-month plus a one-day buffer; the fixed default
window (default_days, 7 at every call site) when the configured day is out
of the range 1..31.  Exceptions raised by pendulum.datetime are not caught
anywhere in the function and surface in the error component. -/
def num_seconds_till_renewal (renewal_date : Nat) (now : PDateTime)
    (default_days : Nat) : Except PyValueError Int :=
  let wait_default : Int := (default_days * 24 * 60 * 60 : Nat)
  if 1 ≤ renewal_date ∧ renewal_date ≤ 31 then
    match pendulum_datetime now.year now.month renewal_date with
    | .error e => .error e
    | .ok renewal_this_month =>
      let rolled :=
        if toSeconds renewal_this_month ≤ toSeconds now then
          addOneMonth renewal_this_month
        else renewal_this_month
      let next_renewal := addOneDay rolled
      .ok ((toSeconds next_renewal : Int) - (toSeconds now : Int))
  else .ok wait_default

/-- C5: the code, not the claim, is at fault here.  The renewal day 31 is
inside the legal range 1..31, yet when the current month has only 30 days
the very first step, pendulum.datetime(now.year, now.month, renewal_date),
raises ValueError, which nothing in num_seconds_till_renewal catches — the
function fails instead of returning a wait duration.  The evaluation below
exhibits this at renewal day 31 with the clock in April 2025.  (The
out-of-range side of the claim does hold: day 0 yields the fixed default
window, as the second conjunct shows at the shipped default of 7 days.) -/
theorem c5_renewal_day31_value_error :
    num_seconds_till_renewal 31 ⟨2025, 4, 15, 12, 0, 0⟩ 7 = .error .valueError ∧
    num_seconds_till_renewal 0 ⟨2025, 4, 15, 12, 0, 0⟩ 7 = .ok 604800 := by decide

/- ---------------------------------------------------------------------
The directory monitor: eligibility filter and per-file exception policy
of one pass of the for-loop in monitor_directory.
--------------------------------------------------------------------- -/

/-- A directory listing entry as yielded by input_dir.iterdir(). -/
structure DirEntry where
  name : String
  isDir : Bool
deriving DecidableEq, Repr

/-- Exception escaping process_file, as observed by the monitor loop. -/
inductive PyExc where
  | quotaExceeded
  | other (description : String)
deriving DecidableEq, Repr

/-- Outcome of one process_file invocation: a normal boolean return, or a
raised exception. -/
inductive FileOutcome where
  | ret (success : Bool)
  | raise (e : PyExc)
deriving DecidableEq, Repr

/-- Result of one pass of the monitor's for-loop, together with the names
processed during the pass in order: the pass ran to completion, or it was
broken off by the quota handler (backoff, then fresh scan), or an
uncaught exception propagated out of monitor_directory. -/
inductive PassResult where
  | completed (processed : List String)
  | quotaBreak (processed : List String)
  | uncaught (e : PyExc) (processed : List String)
deriving DecidableEq, Repr

/-- Files the pass actually dispatched to process_file, in order. -/
def processedFiles : PassResult → List String
  | .completed ps => ps
  | .quotaBreak ps => ps
  | .uncaught _ ps => ps

/-- Python name.startswith(".") on the characters of the name. -/
def startsWithDot (s : String) : Bool :=
  match s.data with
  | [] => false
  | c :: _ => c == '.'

/-- ASCII lowercasing of one character; this is the fragment of str.lower
relevant to a comparison against the ASCII literal ".pdf". -/
def asciiLowerChar (c : Char) : Char :=
  if 65 ≤ c.toNat ∧ c.toNat ≤ 90 then Char.ofNat (c.toNat + 32) else c

/-- Lowercase a string (ASCII fragment of str.lower). -/
def lowerStr (s : String) : String := String.mk (s.data.map asciiLowerChar)

/-- Eligibility filter of monitor_directory: skip directories, skip hidden
names, process only entries whose suffix lowercases to ".pdf". -/
def eligibleEntry (d : DirEntry) : Bool :=
  !d.isDir && !(startsWithDot d.name) && (lowerStr (psuffix d.name) == ".pdf")

/-- Prepend a processed name to a pass result. -/
def consProcessed (n : String) : PassResult → PassResult
  | .completed ps => .completed (n :: ps)
  | .quotaBreak ps => .quotaBreak (n :: ps)
  | .uncaught e ps => .uncaught e (n :: ps)

/-- One pass of the for-loop in monitor_directory over a directory
listing.  The try/except around process_file handles exactly
QuotaExceededException (sleeping until renewal and then breaking out to
rescan); any other exception is unhandled there and propagates out of the
loop. -/
def monitor_pass (proc : String → FileOutcome) : List DirEntry → PassResult
  | [] => .completed []
  | d :: rest =>
    if eligibleEntry d then
      match proc d.name with
      | .ret _ => consProcessed d.name (monitor_pass proc rest)
      | .raise .quotaExceeded => .quotaBreak [d.name]
      | .raise e => .uncaught e [d.name]
    else monitor_pass proc rest

/-- Names of the eligible entries of a listing, in order. -/
def eligibleNames (entries : List DirEntry) : List String :=
  (entries.filter eligibleEntry).map DirEntry.name

/-- When every eligible file is processed without an exception the pass
completes, visiting every eligible file in listing order. -/
theorem monitorPass_all_ret (proc : String → FileOutcome) :
    ∀ entries : List DirEntry,
      (∀ n ∈ eligibleNames entries, ∃ b, proc n = .ret b) →
      monitor_pass proc entries = .completed (eligibleNames entries) := by
  intro entries
  induction entries with
  | nil => intro _; rfl
  | cons d rest ih =>
    intro h
    unfold monitor_pass eligibleNames
    by_cases hd : eligibleEntry d = true
    · rw [if_pos hd]
      obtain ⟨b, hb⟩ := h d.name (by simp [eligibleNames, hd])
      rw [hb]
      have := ih fun n hn => h n (by simp [eligibleNames, hd] at hn ⊢; tauto)
      rw [this]
      simp [consProcessed, eligibleNames, List.filter_cons, hd]
    · rw [if_neg hd]
      have := ih fun n hn => h n (by
        simp [eligibleNames, List.filter_cons] at hn ⊢
        simp [hd]
        exact hn)
      rw [this]
      simp [eligibleNames, List.filter_cons, hd]

/-- When the first eligible file whose processing raises comes after
eligible files that all returned normally, the pass stops at it: a quota
signal breaks the pass, any other exception propagates uncaught. -/
theorem monitorPass_first_raise (proc : String → FileOutcome) :
    ∀ (pre : List DirEntry) (d : DirEntry) (post : List DirEntry) (e : PyExc),
      eligibleEntry d = true →
      (∀ n ∈ eligibleNames pre, ∃ b, proc n = .ret b) →
      proc d.name = .raise e →
      monitor_pass proc (pre ++ d :: post) =
        (match e with
          | .quotaExceeded => .quotaBreak (eligibleNames pre ++ [d.name])
          | .other s => .uncaught (.other s) (eligibleNames pre ++ [d.name])) := by
  intro pre
  induction pre with
  | nil =>
    intro d post e hd _ hraise
    unfold monitor_pass
    simp only [List.nil_append]
    rw [if_pos hd, hraise]
    cases e <;> simp [eligibleNames]
  | cons p rest ih =>
    intro d post e hd h hraise
    unfold monitor_pass
    simp only [List.cons_append]
    by_cases hp : eligibleEntry p = true
    · rw [if_pos hp]
      obtain ⟨b, hb⟩ := h p.name (by simp [eligibleNames, hp])
      rw [hb]
      have := ih d post e hd
        (fun n hn => h n (by simp [eligibleNames, hp] at hn ⊢; tauto)) hraise
      rw [this]
      cases e <;> simp [consProcessed, eligibleNames, List.filter_cons, hp]
    · rw [if_neg hp]
      have := ih d post e hd
        (fun n hn => h n (by
          simp [eligibleNames, List.filter_cons] at hn ⊢
          simp [hp]
          exact hn)) hraise
      rw [this]
      cases e <;> simp [eligibleNames, List.filter_cons, hp]

/-- The per-file processing behaviour used by the C1 counterexample:
processing "bad.pdf" raises a DeepL provider exception (anything other
than the quota signal); every other file processes normally. -/
def c1BadProc : String → FileOutcome := fun n =>
  if n == "bad.pdf" then .raise (.other "DeepLException") else .ret true

/-- The directory listing used by the C1 counterexample. -/
def c1Entries : List DirEntry := [⟨"bad.pdf", false⟩, ⟨"good.pdf", false⟩]

/-- C1 counterexample to the claim as frozen: the monitor loop's only
handler is except QuotaExceededException, so when processing the first
file raises a non-quota exception the pass ends with that exception
uncaught and the next file of the pass, "good.pdf", is never processed —
the single bad file does halt directory monitoring. -/
theorem c1_counterexample :
    monitor_pass c1BadProc c1Entries =
      .uncaught (.other "DeepLException") ["bad.pdf"] ∧
    "good.pdf" ∉ processedFiles (monitor_pass c1BadProc c1Entries) := by decide

/-- C1 (amended): the Monitor's per-file handler catches exactly the
quota-exhaustion signal.  A process_file invocation that returns a
boolean (even False) never halts the pass: when every eligible file
returns normally the pass completes, visiting every eligible file in
listing order.  A quota signal ends the pass early (backoff, then fresh
scan).  Any other exception raised while processing a single file is not
caught: it propagates out of monitor_directory and terminates the
monitoring loop, leaving the rest of the pass unprocessed. -/
theorem c1_monitor_exception_policy (proc : String → FileOutcome)
    (entries : List DirEntry) :
    ((∀ n ∈ eligibleNames entries, ∃ b, proc n = .ret b) →
      monitor_pass proc entries = .completed (eligibleNames entries)) ∧
    (∀ (pre : List DirEntry) (d : DirEntry) (post : List DirEntry),
      entries = pre ++ d :: post →
      eligibleEntry d = true →
      (∀ n ∈ eligibleNames pre, ∃ b, proc n = .ret b) →
      (∀ s, proc d.name = .raise (.other s) →
        monitor_pass proc entries = .uncaught (.other s) (eligibleNames pre ++ [d.name])) ∧
      (proc d.name = .raise .quotaExceeded →
        monitor_pass proc entries = .quotaBreak (eligibleNames pre ++ [d.name]))) := by
  constructor
  · exact monitorPass_all_ret proc entries
  · intro pre d post hsplit hd hpre
    constructor
    · intro s hraise
      rw [hsplit]
      exact monitorPass_first_raise proc pre d post (.other s) hd hpre hraise
    · intro hraise
      rw [hsplit]
      exact monitorPass_first_raise proc pre d post .quotaExceeded hd hpre hraise

/-- Processing behaviour for the C1 witness: "oops.pdf" raises a generic
exception, everything else returns normally. -/
def c1GoodBadProc : String → FileOutcome := fun n =>
  if n == "oops.pdf" then .raise (.other "boom") else .ret true

/-- Listing for the C1 witness. -/
def c1WitnessEntries : List DirEntry := [⟨"ok.pdf", false⟩, ⟨"oops.pdf", false⟩]

/-- Witness for c1_monitor_exception_policy: a concrete two-file listing
where the second file's processing raises a non-quota exception. -/
theorem c1_monitor_exception_policy_witness :
    monitor_pass c1GoodBadProc c1WitnessEntries =
      .uncaught (.other "boom") ["ok.pdf", "oops.pdf"] := by
  have h := ((c1_monitor_exception_policy c1GoodBadProc c1WitnessEntries).2
    [⟨"ok.pdf", false⟩] ⟨"oops.pdf", false⟩ [] rfl (by decide)
    (fun n hn => by
      have hl : eligibleNames [(⟨"ok.pdf", false⟩ : DirEntry)] = ["ok.pdf"] := by decide
      rw [hl] at hn
      refine ⟨true, ?_⟩
      rw [List.mem_singleton.mp hn]
      rfl)).1 "boom" rfl
  exact h.trans (by decide)

/- ---------------------------------------------------------------------
The web server's scoreboard and unique_timestamp_key.

Creations are serialised by scoreboard_lock: each check-and-insert of one
candidate key runs under one lock acquisition, so the map operations are
modelled as atomic sequential steps on the scoreboard.
--------------------------------------------------------------------- -/

/-- Python f-string {counter:03d}: the decimal digits of the counter,
zero-padded on the left to width three (wider counters print in full). -/
def pad3 (n : Nat) : String :=
  if n < 1000 then
    String.mk [Nat.digitChar (n / 100), Nat.digitChar (n / 10 % 10), Nat.digitChar (n % 10)]
  else (Nat.toDigits 10 n).asString

/-- One scoreboard entry as created at job submission. -/
structure ScoreboardEntry where
  id : String
  input_file : Option String
deriving DecidableEq, Repr

/-- The scoreboard map, keyed by job key. -/
abbrev Scoreboard := List (String × ScoreboardEntry)

/-- Membership test key in scoreboard. -/
def sbContains (sb : Scoreboard) (key : String) : Bool :=
  sb.any (fun e => e.1 == key)

/-- The candidate key f"{base}_{counter:03d}" built inside the loop. -/
def keyOf (base : String) (counter : Nat) : String :=
  base ++ "_" ++ pad3 counter

/-- The while-loop of unique_timestamp_key: try counters in turn; each
iteration checks and inserts the candidate under one lock acquisition.
The unbounded while-loop is modelled with fuel; the fuel-zero fallback is
reached only when every tried counter collided, which the callers below
always exclude. -/
def uniqueKeyLoop (base : String) (input_file : Option String) (sb : Scoreboard) :
    Nat → Nat → String × Scoreboard
  | 0, counter =>
    (keyOf base counter,
      (keyOf base counter, ⟨keyOf base counter, input_file⟩) :: sb)
  | fuel + 1, counter =>
    let key := keyOf base counter
    if sbContains sb key then uniqueKeyLoop base input_file sb fuel (counter + 1)
    else (key, (key, ⟨key, input_file⟩) :: sb)

/-- unique_timestamp_key for a fixed timestamp base (the
datetime.now().strftime value): the returned key and the scoreboard after
the insert. -/
def unique_timestamp_key (base : String) (input_file : Option String)
    (sb : Scoreboard) : String × Scoreboard :=
  uniqueKeyLoop base input_file sb (sb.length + 1) 0

/-- N successive creations within the same wall-clock second (same base),
returning the keys in creation order and the final scoreboard. -/
def createKeys (base : String) (input_file : Option String) :
    Nat → Scoreboard → List String × Scoreboard
  | 0, sb => ([], sb)
  | n + 1, sb =>
    let ks := unique_timestamp_key base input_file sb
    let rest := createKeys base input_file n ks.2
    (ks.1 :: rest.1, rest.2)

/-- Nat.digitChar is injective on single digits. -/
theorem digitChar_inj_lt10 :
    ∀ a < 10, ∀ b < 10, Nat.digitChar a = Nat.digitChar b → a = b := by decide

/-- pad3 is injective on counters below 1000. -/
theorem pad3_inj {a b : Nat} (ha : a < 1000) (hb : b < 1000)
    (h : pad3 a = pad3 b) : a = b := by
  unfold pad3 at h
  rw [if_pos ha, if_pos hb] at h
  have h2 : [Nat.digitChar (a / 100), Nat.digitChar (a / 10 % 10), Nat.digitChar (a % 10)] =
      [Nat.digitChar (b / 100), Nat.digitChar (b / 10 % 10), Nat.digitChar (b % 10)] :=
    congrArg String.data h
  simp only [List.cons.injEq, and_true] at h2
  obtain ⟨e1, e2, e3⟩ := h2
  have d1 := digitChar_inj_lt10 (a / 100) (by omega) (b / 100) (by omega) e1
  have d2 := digitChar_inj_lt10 (a / 10 % 10) (by omega) (b / 10 % 10) (by omega) e2
  have d3 := digitChar_inj_lt10 (a % 10) (by omega) (b % 10) (by omega) e3
  omega

/-- keyOf with a fixed base is injective on counters below 1000. -/
theorem keyOf_inj {base : String} {a b : Nat} (ha : a < 1000) (hb : b < 1000)
    (h : keyOf base a = keyOf base b) : a = b := by
  unfold keyOf at h
  have hdata := congrArg String.data h
  simp only [String.data_append] at hdata
  have hl := List.append_cancel_left hdata
  exact pad3_inj ha hb (congrArg String.mk hl)

/-- The key-search loop returns the first free counter: if the candidates
at offsets 0..j-1 from the starting counter are all taken and the one at
offset j is free, the loop (given more than j units of fuel) inserts and
returns the candidate at offset j. -/
theorem uniqueKeyLoop_finds (base : String) (input_file : Option String) :
    ∀ (j : Nat) (sb : Scoreboard) (fuel counter : Nat),
      (∀ i < j, sbContains sb (keyOf base (counter + i)) = true) →
      sbContains sb (keyOf base (counter + j)) = false →
      j < fuel →
      uniqueKeyLoop base input_file sb fuel counter =
        (keyOf base (counter + j),
          (keyOf base (counter + j),
            ⟨keyOf base (counter + j), input_file⟩) :: sb) := by
  intro j
  induction j with
  | zero =>
    intro sb fuel counter _ hfree hfuel
    cases fuel with
    | zero => omega
    | succ f =>
      rw [Nat.add_zero] at hfree
      unfold uniqueKeyLoop
      simp [hfree]
  | succ j ih =>
    intro sb fuel counter htaken hfree hfuel
    cases fuel with
    | zero => omega
    | succ f =>
      have h0 : sbContains sb (keyOf base counter) = true := by
        have := htaken 0 (by omega)
        rwa [Nat.add_zero] at this
      unfold uniqueKeyLoop
      simp only [h0, if_true]
      have hstep := ih sb f (counter + 1)
        (fun i hi => by
          have := htaken (i + 1) (by omega)
          rwa [show counter + (i + 1) = counter + 1 + i by omega] at this)
        (by rwa [show counter + 1 + j = counter + (j + 1) by omega])
        (by omega)
      rw [hstep]
      rw [show counter + 1 + j = counter + (j + 1) by omega]

/-- Invariant-preserving induction for successive creations: starting from
a scoreboard holding exactly the keys of this base with counters below j
(among counters below 1000), n further creations return the keys with
counters j, j+1, ..., j+n-1 in order. -/
theorem createKeys_spec (base : String) (input_file : Option String) :
    ∀ (n j : Nat) (sb : Scoreboard),
      j ≤ sb.length →
      j + n ≤ 1000 →
      (∀ c < 1000, (sbContains sb (keyOf base c) = true ↔ c < j)) →
      (createKeys base input_file n sb).1 = (List.range' j n).map (keyOf base) := by
  intro n
  induction n with
  | zero => intro j sb _ _ _; rfl
  | succ n ih =>
    intro j sb hlen hmax hinv
    have hjlt : j < 1000 := by omega
    have hfind := uniqueKeyLoop_finds base input_file j sb (sb.length + 1) 0
      (fun i hi => by
        have := (hinv i (by omega)).mpr hi
        rwa [Nat.zero_add])
      (by
        have : ¬ (sbContains sb (keyOf base j) = true) := by
          rw [hinv j hjlt]; omega
        rw [Nat.zero_add]
        exact Bool.not_eq_true _ ▸ (by simpa using this))
      (by omega)
    rw [Nat.zero_add] at hfind
    have hcons : (createKeys base input_file (n + 1) sb).1 =
        keyOf base j ::
          (createKeys base input_file n
            ((keyOf base j, ⟨keyOf base j, input_file⟩) :: sb)).1 := by
      conv_lhs => rw [createKeys]
      simp only [unique_timestamp_key]
      rw [hfind]
    rw [hcons]
    have hinv2 : ∀ c < 1000,
        (sbContains ((keyOf base j, (⟨keyOf base j, input_file⟩ : ScoreboardEntry)) :: sb)
            (keyOf base c) = true ↔ c < j + 1) := by
      intro c hc
      unfold sbContains
      rw [List.any_cons]
      simp only [Bool.or_eq_true, beq_iff_eq]
      constructor
      · intro hor
        rcases hor with heq | hmem
        · have := keyOf_inj hjlt hc heq
          omega
        · have := (hinv c hc).mp hmem
          omega
      · intro hlt
        by_cases hcj : c = j
        · left; rw [hcj]
        · right
          exact (hinv c hc).mpr (by omega)
    have hrest := ih (j + 1)
      ((keyOf base j, ⟨keyOf base j, input_file⟩) :: sb)
      (by simp; omega) (by omega) hinv2
    rw [hrest, List.range'_succ j n 1]
    rfl

/-- C9: every creation inserts under a key not previously present (the
per-candidate check and insert happen under one scoreboard_lock
acquisition, modelled as an atomic step), and N creations sharing one
wall-clock second — one timestamp base, starting from a scoreboard with
no key of that base — yield exactly the keys base_000, base_001, ...,
base_(N-1) in creation order: pairwise distinct, none previously in the
scoreboard. -/
theorem c9_unique_timestamp_keys (base : String) (input_file : Option String)
    (sb : Scoreboard) (N : Nat)
    (hfresh : ∀ c < 1000, sbContains sb (keyOf base c) = false)
    (hN : N ≤ 1000) :
    (createKeys base input_file N sb).1 = (List.range N).map (keyOf base) ∧
    (createKeys base input_file N sb).1.Nodup ∧
    ∀ k ∈ (createKeys base input_file N sb).1, sbContains sb k = false := by
  have hmain : (createKeys base input_file N sb).1 =
      (List.range' 0 N).map (keyOf base) := by
    refine createKeys_spec base input_file N 0 sb (by omega) (by omega) ?_
    intro c hc
    rw [hfresh c hc]
    simp
  have hr : List.range N = List.range' 0 N := List.range_eq_range' N
  refine ⟨by rw [hmain, hr], ?_, ?_⟩
  · rw [hmain]
    refine List.Nodup.map_on ?_ (List.nodup_range' 0 N)
    intro x hx y hy hxy
    have hx2 : x < N := by have := List.mem_range'_1.mp hx; omega
    have hy2 : y < N := by have := List.mem_range'_1.mp hy; omega
    exact keyOf_inj (by omega) (by omega) hxy
  · intro k hk
    rw [hmain] at hk
    obtain ⟨c, hc, rfl⟩ := List.mem_map.mp hk
    have hcN : c < N := by have := List.mem_range'_1.mp hc; omega
    exact hfresh c (by omega)

/-- Witness for c9_unique_timestamp_keys: three submissions within the
second 2025-10-12 08:00:00 against an empty scoreboard. -/
theorem c9_unique_timestamp_keys_witness :
    (createKeys "2025_10_12_08_00_00" none 3 []).1 =
      ["2025_10_12_08_00_00_000", "2025_10_12_08_00_00_001",
        "2025_10_12_08_00_00_002"] := by
  have h := (c9_unique_timestamp_keys "2025_10_12_08_00_00" none [] 3
    (fun c hc => rfl) (by omega)).1
  exact h.trans (by decide)

/- ---------------------------------------------------------------------
The file-processing pipeline: filesystem model, external-operation
oracles, path derivation, document upload, merge, cleanup.
--------------------------------------------------------------------- -/

/-- Content of a file in the filesystem model.  copy2 copies an entry
verbatim (content and metadata together); the provider and the merger
produce structurally distinct contents. -/
inductive FileContent where
  | raw (id : Nat)
  | translated (source : FileContent)
  | mergedDoc (first second : FileContent)
deriving DecidableEq, Repr

/-- The filesystem: an association of paths to file contents (first match
wins; writes shadow and deletes remove every binding of the path). -/
abbrev FS := List (String × FileContent)

/-- Content stored at a path, when the path exists. -/
def fsLookup (fs : FS) (p : String) : Option FileContent :=
  (fs.find? (fun e => e.1 == p)).map (fun e => e.2)

/-- Existence test for a path. -/
def fsExists (fs : FS) (p : String) : Bool :=
  (fsLookup fs p).isSome

/-- Write (create or overwrite) a path. -/
def fsWrite (fs : FS) (p : String) (v : FileContent) : FS :=
  (p, v) :: fs.filter (fun e => !(e.1 == p))

/-- Remove a path. -/
def fsErase (fs : FS) (p : String) : FS :=
  fs.filter (fun e => !(e.1 == p))

/-- delete_file: removes the file when it exists, no-op (still reported as
success) when it does not.  I/O errors of the unlink itself are logged and
reported as False without removing the file; no claim turns on them, so
the unlink is modelled as succeeding. -/
def delete_file (fs : FS) (p : String) : FS × Bool :=
  if fsExists fs p then (fsErase fs p, true) else (fs, true)

/-- The slice of the Config dataclass that the pipeline reads.  The two
callback fields record whether the corresponding optional callback was
supplied; the model tracks whether each fires. -/
structure Config where
  output_dir : String
  tmp_dir : String
  log_dir : String
  target_lang : String
  translate_filename : Bool
  put_original_first : Bool
  hasCallbackOnLocalLogFile : Bool
  hasCallbackOnFileComplete : Bool
deriving DecidableEq, Repr

/-- Exceptions confirm_api_connection can let escape: it re-raises the
DeepL client's AuthorizationException, ConnectionException, DeepLException,
ValueError and OSError after logging them (log_and_raise). -/
inductive ConnExc where
  | authorization
  | connection
  | deeplError
  | valueError
  | osError
deriving DecidableEq, Repr

/-- Behaviour of confirm_api_connection: either a usable client (the
function returns a non-None client whenever no exception was raised, so a
None result cannot reach the caller's is-None check), or a raised
exception. -/
inductive ConnOutcome where
  | ok
  | raise (e : ConnExc)
deriving DecidableEq, Repr

/-- Behaviour of the provider's translate_document_from_filepath call:
normal completion carrying document_status.ok (the result file is written
on completion), a DocumentTranslationException whose message (with the
document-handle suffix replaced by a full stop) is errMsg, the structured
deepl QuotaExceededException, or any other exception. -/
inductive DocOutcome where
  | done (stOk : Bool)
  | raiseDocTrans (errMsg : String)
  | raiseQuota
  | raiseOther
deriving DecidableEq, Repr

/-- Failure modes of the GoogleTranslator short-text call that
translate_string handles: deep_translator's RequestError, TooManyRequests
and TranslationNotFound. -/
inductive TransExc where
  | requestError
  | tooManyRequests
  | translationNotFound
deriving DecidableEq, Repr

/-- Behaviour of the external collaborators during one pipeline
invocation: the strftime timestamp used in temporary/log file names,
whether the per-job FileHandler could be created, the connection and
document-translation outcomes, whether the debug-mode copy2 fails for an
environmental reason (permission or OS error), whether the pypdf merge
fails internally, and the short-text translator's response. -/
structure Oracles where
  timestamp : String
  addLoggerOk : Bool
  conn : ConnOutcome
  doc : DocOutcome
  copyFault : Bool
  mergeFault : Bool
  gt : String → String → Except TransExc String

/-- Python str.strip() of a string. -/
def stripStr (s : String) : String := String.mk (pyStrip s.data)

/-- ASCII uppercasing of one character (fragment of str.upper relevant to
the ASCII language codes compared here). -/
def asciiUpperChar (c : Char) : Char :=
  if 97 ≤ c.toNat ∧ c.toNat ≤ 122 then Char.ofNat (c.toNat - 32) else c

/-- Uppercase a string (ASCII fragment of str.upper). -/
def upperStr (s : String) : String := String.mk (s.data.map asciiUpperChar)

/-- Map underscores to spaces. -/
def underscoreToSpace (s : String) : String :=
  String.mk (s.data.map (fun c => if c == '_' then ' ' else c))

/-- Map spaces to underscores. -/
def spaceToUnderscore (s : String) : String :=
  String.mk (s.data.map (fun c => if c == ' ' then '_' else c))

/-- The DEEPL_LANGUAGES table of get_deepl_languages, in insertion order. -/
def DEEPL_LANGUAGES : List (String × String) :=
  [("AR", "Arabic"), ("BG", "Bulgarian"), ("CS", "Czech"), ("DA", "Danish"),
   ("DE", "German"), ("EL", "Greek"), ("EN", "English"),
   ("EN-GB", "English (British)"), ("EN-US", "English (American)"),
   ("ES", "Spanish"), ("ES-419", "Spanish (Latin American)"),
   ("ET", "Estonian"), ("FI", "Finnish"), ("FR", "French"),
   ("HU", "Hungarian"), ("ID", "Indonesian"), ("IT", "Italian"),
   ("JA", "Japanese"), ("KO", "Korean"), ("LT", "Lithuanian"),
   ("LV", "Latvian"), ("NB", "Norwegian (Bokmål)"), ("NL", "Dutch"),
   ("PL", "Polish"), ("PT", "Portuguese"), ("PT-BR", "Portuguese (Brazilian)"),
   ("PT-PT", "Portuguese (European)"), ("RO", "Romanian"), ("RU", "Russian"),
   ("SK", "Slovak"), ("SL", "Slovenian"), ("SV", "Swedish"), ("TR", "Turkish"),
   ("UK", "Ukrainian"), ("ZH", "Chinese"), ("ZH-HANS", "Chinese (simplified)"),
   ("ZH-HANT", "Chinese (traditional)")]

/-- get_valid_deepl_target_lang: normalize a user-supplied code through
the special-case aliases, then return the first table code whose
uppercased code or lowercased name matches. -/
def get_valid_deepl_target_lang (lang_code : String) : Option String :=
  let lc := lowerStr (stripStr lang_code)
  let lang_code2 :=
    if lc = "zh-cn" ∨ lc = "zh" ∨ lc = "chinese (simplified)" then "zh-hans"
    else if lc = "no" ∨ lc = "norwegian" then "nb"
    else if lc = "en-ca" ∨ lc = "en-ph" then "en-us"
    else if lc = "en" ∨ lc = "english" ∨ lc = "en-au" ∨ lc = "en-nz" ∨
        lc = "en-za" ∨ lc = "en-in" ∨ lc = "en-ie" ∨ lc = "en-sg" ∨
        lc = "en-hk" ∨ lc = "en-uk" then "en-gb"
    else if lc = "pt" ∨ lc = "portuguese" then "pt-pt"
    else lang_code
  let code_format := upperStr (stripStr lang_code2)
  let name_format := lowerStr (stripStr lang_code2)
  match DEEPL_LANGUAGES.find?
      (fun cn => code_format == upperStr cn.1 || name_format == lowerStr cn.2) with
  | some cn => some cn.1
  | none => none

/-- deepl_to_google_code: validate the DeepL code, then translate it to a
GoogleTranslator code through the exceptions map, defaulting to the first
two letters lowercased. -/
def deepl_to_google_code (deepl_code : String) : Option String :=
  match get_valid_deepl_target_lang deepl_code with
  | none => none
  | some deepl_code_clean =>
    if deepl_code_clean = "ZH" then some "zh-cn"
    else if deepl_code_clean = "NB" then some "no"
    else if deepl_code_clean = "PT-BR" ∨ deepl_code_clean = "PT-PT" then some "pt"
    else if deepl_code_clean = "EN-US" ∨ deepl_code_clean = "EN-GB" then some "en"
    else some (lowerStr (String.mk (deepl_code_clean.data.take 2)))

/-- translate_string: underscores become spaces, the short-text translator
runs, spaces become underscores again; the three handled deep_translator
failures fall back to the original string. -/
def translate_string (gt : String → String → Except TransExc String)
    (orig_string : String) (target_lang_short : String) : String :=
  let spaced_string := underscoreToSpace orig_string
  match gt spaced_string target_lang_short with
  | .ok translated => spaceToUnderscore translated
  | .error _ => orig_string

/-- get_clean_input_file: sanitize the name; when the safe name differs
from the original name, copy the file (copy2, metadata preserved) into the
temporary directory under the safe name; sanitization failure, or an OS
error from the copy (source missing), yields None. -/
def get_clean_input_file (fs : FS) (file : String) (tmp_dir : String) :
    FS × Option String :=
  match clean_filename file with
  | .error _ => (fs, none)
  | .ok clean_name =>
    if clean_name == pname file then (fs, some file)
    else
      match fsLookup fs file with
      | some v =>
        (fsWrite fs (tmp_dir ++ "/" ++ clean_name) v,
          some (tmp_dir ++ "/" ++ clean_name))
      | none => (fs, none)

/-- create_tmp_file_path: temporary file named after the input's stem with
the strftime timestamp, keeping the input's suffix. -/
def create_tmp_file_path (input_file : String) (tmp_dir : String)
    (timestamp : String) : String :=
  tmp_dir ++ "/" ++ pstem input_file ++ "_" ++ timestamp ++ psuffix input_file

/-- generate_file_path_vars: derive the (input, temporary, output) path
triplet, substituting a translated basename into the output path when
filename translation is enabled and the target language maps to a
GoogleTranslator code. -/
def generate_file_path_vars (cfg : Config) (orx : Oracles) (fs : FS)
    (file_path : String) : FS × Option (String × String × String) :=
  let cleaned := get_clean_input_file fs file_path cfg.tmp_dir
  match cleaned.2 with
  | none => (cleaned.1, none)
  | some input_file_path =>
    let tmp_file_path := create_tmp_file_path input_file_path cfg.tmp_dir orx.timestamp
    let output_file_path :=
      if cfg.translate_filename then
        match deepl_to_google_code cfg.target_lang with
        | some target_lang_google =>
          cfg.output_dir ++ "/" ++
            translate_string orx.gt (pstem file_path) target_lang_google ++
            psuffix file_path
        | none => cfg.output_dir ++ "/" ++ pname input_file_path
      else cfg.output_dir ++ "/" ++ pname input_file_path
    (cleaned.1, some (input_file_path, tmp_file_path, output_file_path))

/-- The module constant DEBUG_NO_SEND_FILE as shipped. -/
def DEBUG_NO_SEND_FILE : Bool := true

/-- The message against which a DocumentTranslationException is compared
(the source appends the full stop when stripping the document-handle
suffix from str(error)). -/
def quotaExceededText : String := "Quota for this billing period has been exceeded."

/-- send_document_to_server.  When the debug flag is off the provider is
invoked: completion writes the result file and returns document_status.ok;
a DocumentTranslationException is caught, and re-raised as the module's
QuotaExceededException (the error component) exactly when its message
equals the quota text, otherwise absorbed with result False; the
structured deepl QuotaExceededException is re-raised as the module's
QuotaExceededException; any other exception is absorbed with result False.
When the debug flag is on the provider is never consulted: copy2 copies
the source to the result path (metadata preserved), False on a copy
failure (missing source, or an environmental fault), caught locally. -/
def send_document_to_server (debugNoSend copyFault : Bool) (doc : DocOutcome)
    (source_file result_file : String) (fs : FS) : FS × Except Unit Bool :=
  if debugNoSend = false then
    match doc with
    | .done stOk =>
      if stOk then
        (fsWrite fs result_file
          (.translated ((fsLookup fs source_file).getD (.raw 0))), .ok true)
      else (fs, .ok false)
    | .raiseDocTrans errMsg =>
      (fs, if errMsg == quotaExceededText then .error () else .ok false)
    | .raiseQuota => (fs, .error ())
    | .raiseOther => (fs, .ok false)
  else
    match fsLookup fs source_file with
    | some v =>
      if copyFault then (fs, .ok false) else (fsWrite fs result_file v, .ok true)
    | none => (fs, .ok false)

/-- append_pdfs: read both documents, write their merger to the output
path in the configured order; a missing input or an internal pypdf error
is caught, returning False with nothing written. -/
def append_pdfs (mergeFault put_original_first : Bool) (fs : FS)
    (original_pdf translated_pdf output_pdf : String) : FS × Bool :=
  match fsLookup fs original_pdf, fsLookup fs translated_pdf with
  | some a, some b =>
    if mergeFault then (fs, false)
    else
      (fsWrite fs output_pdf
        (if put_original_first then .mergedDoc a b else .mergedDoc b a), true)
  | _, _ => (fs, false)

/-- Exceptions that can escape process_file: the module's
QuotaExceededException re-raised from the translate stage, or a
connection-stage exception that the try's except clauses do not catch. -/
inductive PyRaise where
  | quotaExceeded
  | fromConnection (e : ConnExc)
deriving DecidableEq, Repr

/-- Observable outcome of one process_file invocation: the final
filesystem, the filesystem as it stood after the translate/merge stages
(before cleanup), the returned boolean or raised exception, whether the
per-job log handler was opened and whether it was closed/removed again,
the paths handed to delete_file in order, and which callbacks fired. -/
structure PFResult where
  fs : FS
  fsAfterStages : FS
  retval : Except PyRaise Bool
  logOpened : Bool
  logClosed : Bool
  deletions : List String
  cbLogFired : Bool
  cbCompleteFired : Bool
deriving DecidableEq, Repr

/-- An early return from process_file: it leaves the per-job log handler
unclosed (the close only happens at the end of the straight-line body),
deletes nothing and fires no completion callback. -/
def earlyReturn (fs : FS) (opened cbLog : Bool) (v : Except PyRaise Bool) : PFResult :=
  ⟨fs, fs, v, opened, false, [], cbLog, false⟩

/-- The tail of process_file after the translate/merge stages: cleanup
(guarded by existence of the output file: delete the temporary file, the
sanitized input, and — only if it still exists, which a no-op
sanitization's input deletion already removed — the original path;
then the completion callback), the notification sink, and the closing of
the per-job log handler. -/
def finishUp (cfg : Config) (fs3 : FS)
    (file_path input_file_path tmp_file_path output_file_path : String)
    (opened cbLog : Bool) (result : Bool) : PFResult :=
  if fsExists fs3 output_file_path then
    let d1 := delete_file fs3 tmp_file_path
    let d2 := delete_file d1.1 input_file_path
    if fsExists d2.1 file_path then
      let d3 := delete_file d2.1 file_path
      ⟨d3.1, fs3, .ok result, opened, true,
        [tmp_file_path, input_file_path, file_path], cbLog,
        cfg.hasCallbackOnFileComplete⟩
    else
      ⟨d2.1, fs3, .ok result, opened, true,
        [tmp_file_path, input_file_path], cbLog,
        cfg.hasCallbackOnFileComplete⟩
  else
    ⟨fs3, fs3, .ok result, opened, true, [], cbLog, false⟩

/-- The part of process_file after successful path derivation: when the
sanitized input exists, connect (an OSError — PermissionError included —
from the connection is caught by the try's except clauses and returns
False; the DeepL exceptions and ValueError are not caught and propagate),
upload the document (a QuotaExceededException from
send_document_to_server propagates), merge when the temporary file exists
(otherwise the job has failed), then clean up and close the log handler;
a missing input returns False. -/
def process_file_translate (debugNoSend : Bool) (cfg : Config) (orx : Oracles)
    (file_path input_file_path tmp_file_path output_file_path : String)
    (fs1 : FS) : PFResult :=
  let opened := orx.addLoggerOk
  let cbLog := cfg.hasCallbackOnLocalLogFile
  if fsExists fs1 input_file_path then
    match orx.conn with
    | .raise .osError => earlyReturn fs1 opened cbLog (.ok false)
    | .raise e => earlyReturn fs1 opened cbLog (.error (.fromConnection e))
    | .ok =>
      let sent := send_document_to_server debugNoSend orx.copyFault orx.doc
        input_file_path tmp_file_path fs1
      match sent.2 with
      | .error _ => earlyReturn sent.1 opened cbLog (.error .quotaExceeded)
      | .ok _ =>
        let merged :=
          if fsExists sent.1 tmp_file_path then
            append_pdfs orx.mergeFault cfg.put_original_first sent.1
              input_file_path tmp_file_path output_file_path
          else (sent.1, false)
        finishUp cfg merged.1 file_path input_file_path tmp_file_path
          output_file_path opened cbLog merged.2
  else earlyReturn fs1 opened cbLog (.ok false)

/-- process_file: open the per-job log handler (the on-log-file callback
fires whether or not the FileHandler could be created), derive the path
triplet (failure: return False, with the log handler left unclosed by the
early return), and otherwise run the translate/merge/cleanup body. -/
def process_file (debugNoSend : Bool) (cfg : Config) (orx : Oracles)
    (origDir origName : String) (fs0 : FS) : PFResult :=
  match (generate_file_path_vars cfg orx fs0 (origDir ++ "/" ++ origName)).2 with
  | none =>
    earlyReturn (generate_file_path_vars cfg orx fs0 (origDir ++ "/" ++ origName)).1
      orx.addLoggerOk cfg.hasCallbackOnLocalLogFile (.ok false)
  | some paths =>
    process_file_translate debugNoSend cfg orx (origDir ++ "/" ++ origName)
      paths.1 paths.2.1 paths.2.2
      (generate_file_path_vars cfg orx fs0 (origDir ++ "/" ++ origName)).1

/-- Reduction of process_file on the path-derivation failure path. -/
theorem process_file_none (debugNoSend : Bool) (cfg : Config) (orx : Oracles)
    (origDir origName : String) (fs0 : FS)
    (h : (generate_file_path_vars cfg orx fs0 (origDir ++ "/" ++ origName)).2 = none) :
    process_file debugNoSend cfg orx origDir origName fs0 =
      earlyReturn (generate_file_path_vars cfg orx fs0 (origDir ++ "/" ++ origName)).1
        orx.addLoggerOk cfg.hasCallbackOnLocalLogFile (.ok false) := by
  unfold process_file
  rw [h]

/-- Reduction of process_file once the path triplet is known. -/
theorem process_file_some (debugNoSend : Bool) (cfg : Config) (orx : Oracles)
    (origDir origName : String) (fs0 fs1 : FS) (ipath tpath opath : String)
    (h : generate_file_path_vars cfg orx fs0 (origDir ++ "/" ++ origName) =
      (fs1, some (ipath, tpath, opath))) :
    process_file debugNoSend cfg orx origDir origName fs0 =
      process_file_translate debugNoSend cfg orx (origDir ++ "/" ++ origName)
        ipath tpath opath fs1 := by
  unfold process_file
  rw [h]

/-- finishUp always returns the stage result as the boolean outcome. -/
theorem finishUp_retval (cfg : Config) (fs3 : FS)
    (fp ip tp op : String) (opened cb r : Bool) :
    (finishUp cfg fs3 fp ip tp op opened cb r).retval = .ok r := by
  unfold finishUp
  split
  · dsimp only
    split <;> rfl
  · rfl

/-- finishUp records the filesystem it received as the post-stage state. -/
theorem finishUp_fsAfterStages (cfg : Config) (fs3 : FS)
    (fp ip tp op : String) (opened cb r : Bool) :
    (finishUp cfg fs3 fp ip tp op opened cb r).fsAfterStages = fs3 := by
  unfold finishUp
  split
  · dsimp only
    split <;> rfl
  · rfl

/-- When the output file does not exist after the stages, finishUp deletes
nothing, fires no completion callback, and leaves the filesystem as the
stages left it. -/
theorem finishUp_no_output (cfg : Config) (fs3 : FS)
    (fp ip tp op : String) (opened cb r : Bool)
    (h : fsExists fs3 op = false) :
    finishUp cfg fs3 fp ip tp op opened cb r =
      ⟨fs3, fs3, .ok r, opened, true, [], cb, false⟩ := by
  unfold finishUp
  rw [if_neg (by simp [h])]

/-- C2: as shipped (DEBUG_NO_SEND_FILE is true), send_document_to_server
never consults the provider's document-translate operation — its result is
the same for any two provider behaviours — and instead copies the source
file verbatim (content and metadata) to the temporary result path,
returning True exactly when the copy succeeds and False when it fails
(missing source, or an environmental copy fault). -/
theorem c2_debug_send_spec (doc1 doc2 : DocOutcome) (copyFault : Bool)
    (src dst : String) (fs : FS) :
    send_document_to_server DEBUG_NO_SEND_FILE copyFault doc1 src dst fs =
      send_document_to_server DEBUG_NO_SEND_FILE copyFault doc2 src dst fs ∧
    (∀ v, fsLookup fs src = some v → copyFault = false →
      send_document_to_server DEBUG_NO_SEND_FILE copyFault doc1 src dst fs =
        (fsWrite fs dst v, .ok true)) ∧
    (fsLookup fs src = none ∨ copyFault = true →
      send_document_to_server DEBUG_NO_SEND_FILE copyFault doc1 src dst fs =
        (fs, .ok false)) := by
  have hred : ∀ doc : DocOutcome,
      send_document_to_server DEBUG_NO_SEND_FILE copyFault doc src dst fs =
        (match fsLookup fs src with
          | some v =>
            if copyFault then (fs, .ok false) else (fsWrite fs dst v, .ok true)
          | none => (fs, .ok false)) := by
    intro doc
    unfold send_document_to_server DEBUG_NO_SEND_FILE
    rw [if_neg (by simp)]
  refine ⟨(hred doc1).trans (hred doc2).symm, ?_, ?_⟩
  · intro v hv hcf
    rw [hred doc1, hv, hcf]
    simp
  · rintro (h | h)
    · rw [hred doc1, h]
    · cases hfs : fsLookup fs src
      · rw [hred doc1, hfs]
      · rw [hred doc1, hfs]
        simp [h]

/-- Witness for c2_debug_send_spec: a concrete copy of an existing source. -/
theorem c2_debug_send_spec_witness :
    send_document_to_server DEBUG_NO_SEND_FILE false .raiseQuota
        "/in/a.pdf" "/tmpd/a.pdf" [("/in/a.pdf", .raw 1)] =
      (fsWrite [("/in/a.pdf", FileContent.raw 1)] "/tmpd/a.pdf" (.raw 1), .ok true) :=
  (c2_debug_send_spec .raiseQuota (.done true) false "/in/a.pdf" "/tmpd/a.pdf"
    [("/in/a.pdf", .raw 1)]).2.1 (.raw 1) (by decide) rfl

/-- C3: with the provider actually consulted (debug flag off) and the
translate stage reached (paths derived, sanitized input present, API
connection established), a quota-exhaustion signal — the provider's
structured QuotaExceededException, or a DocumentTranslationException whose
message equals the quota text — is re-raised out of process_file as the
module's typed QuotaExceededException, while every other failure of the
document-translate operation is absorbed and surfaces only as the boolean
False result of process_file (the freshly timestamped temporary path not
pre-existing, no merge can run). -/
theorem c3_quota_policy (cfg : Config) (orx : Oracles) (origDir origName : String)
    (fs0 fs1 : FS) (ipath tpath opath : String)
    (hpaths : generate_file_path_vars cfg orx fs0 (origDir ++ "/" ++ origName) =
      (fs1, some (ipath, tpath, opath)))
    (hin : fsExists fs1 ipath = true)
    (hconn : orx.conn = .ok)
    (htmp : fsExists fs1 tpath = false) :
    (orx.doc = .raiseQuota →
      (process_file false cfg orx origDir origName fs0).retval =
        .error .quotaExceeded) ∧
    (∀ errMsg, orx.doc = .raiseDocTrans errMsg →
      (errMsg = quotaExceededText →
        (process_file false cfg orx origDir origName fs0).retval =
          .error .quotaExceeded) ∧
      (errMsg ≠ quotaExceededText →
        (process_file false cfg orx origDir origName fs0).retval = .ok false)) ∧
    (orx.doc = .raiseOther →
      (process_file false cfg orx origDir origName fs0).retval = .ok false) := by
  have hred := process_file_some false cfg orx origDir origName fs0 fs1
    ipath tpath opath hpaths
  refine ⟨?_, ?_, ?_⟩
  · intro hdoc
    rw [hred]
    unfold process_file_translate
    simp [hin, hconn, hdoc, send_document_to_server, earlyReturn]
  · intro errMsg hdoc
    constructor
    · intro heq
      rw [hred]
      unfold process_file_translate
      simp [hin, hconn, hdoc, heq, send_document_to_server, earlyReturn]
    · intro hne
      have hbeq : (errMsg == quotaExceededText) = false := by
        simp [hne]
      have hsend : send_document_to_server false orx.copyFault orx.doc ipath tpath fs1 =
          (fs1, .ok false) := by
        unfold send_document_to_server
        rw [if_pos rfl, hdoc]
        simp [hbeq]
      rw [hred]
      unfold process_file_translate
      simp [hin, hconn, hsend, htmp, finishUp_retval]
  · intro hdoc
    have hsend : send_document_to_server false orx.copyFault orx.doc ipath tpath fs1 =
        (fs1, .ok false) := by
      unfold send_document_to_server
      rw [if_pos rfl, hdoc]
    rw [hred]
    unfold process_file_translate
    simp [hin, hconn, hsend, htmp, finishUp_retval]

/-- A concrete configuration shared by the pipeline examples below. -/
def exCfg : Config := ⟨"/out", "/tmpd", "/log", "EN-US", false, false, false, false⟩

/-- A concrete all-goes-well oracle shared by the pipeline examples. -/
def exOrx : Oracles :=
  ⟨"20250101_000000", true, .ok, .done true, false, false, fun s _ => .ok s⟩

/-- Witness for c3_quota_policy: a structured quota error at a concrete
input re-raised as the module's QuotaExceededException. -/
theorem c3_quota_policy_witness :
    (process_file false exCfg { exOrx with doc := .raiseQuota } "/in" "a.pdf"
      [("/in/a.pdf", .raw 3)]).retval = .error .quotaExceeded :=
  (c3_quota_policy exCfg { exOrx with doc := .raiseQuota } "/in" "a.pdf"
    [("/in/a.pdf", .raw 3)] [("/in/a.pdf", .raw 3)]
    "/in/a.pdf" "/tmpd/a_20250101_000000.pdf" "/out/a.pdf"
    (by decide) (by decide) rfl (by decide)).1 rfl

/-- C6: the cleanup stage deletes files only when the final output exists
at the end of the translate/merge stages: whenever the output path is
absent from the post-stage filesystem, process_file hands nothing to
delete_file and the final filesystem is exactly the post-stage one — the
original source, the sanitized working copy and the temporary path are
left untouched on the failed job.  The same holds trivially on the
path-derivation failure path. -/
theorem c6_cleanup_only_if_output (debugNoSend : Bool) (cfg : Config)
    (orx : Oracles) (origDir origName : String) (fs0 : FS) :
    (∀ fs1 ipath tpath opath,
      generate_file_path_vars cfg orx fs0 (origDir ++ "/" ++ origName) =
        (fs1, some (ipath, tpath, opath)) →
      fsExists (process_file debugNoSend cfg orx origDir origName fs0).fsAfterStages
          opath = false →
      (process_file debugNoSend cfg orx origDir origName fs0).deletions = [] ∧
      (process_file debugNoSend cfg orx origDir origName fs0).fs =
        (process_file debugNoSend cfg orx origDir origName fs0).fsAfterStages) ∧
    ((generate_file_path_vars cfg orx fs0 (origDir ++ "/" ++ origName)).2 = none →
      (process_file debugNoSend cfg orx origDir origName fs0).deletions = [] ∧
      (process_file debugNoSend cfg orx origDir origName fs0).fs =
        (process_file debugNoSend cfg orx origDir origName fs0).fsAfterStages) := by
  constructor
  · intro fs1 ipath tpath opath hpaths hout
    rw [process_file_some debugNoSend cfg orx origDir origName fs0 fs1
      ipath tpath opath hpaths] at hout ⊢
    unfold process_file_translate at hout ⊢
    by_cases hin : fsExists fs1 ipath = true
    · simp only [hin, if_true] at hout ⊢
      cases hc : orx.conn with
      | ok =>
        simp only [hc] at hout ⊢
        cases hs : (send_document_to_server debugNoSend orx.copyFault orx.doc
            ipath tpath fs1).2 with
        | error e =>
          simp only [hs] at hout ⊢
          exact ⟨rfl, rfl⟩
        | ok b =>
          simp only [hs] at hout ⊢
          rw [finishUp_fsAfterStages] at hout
          rw [finishUp_no_output _ _ _ _ _ _ _ _ _ hout]
          exact ⟨rfl, rfl⟩
      | raise e =>
        cases e <;> simp only [hc] at hout ⊢ <;> exact ⟨rfl, rfl⟩
    · simp only [Bool.not_eq_true] at hin
      simp only [hin, Bool.false_eq_true, if_false] at hout ⊢
      exact ⟨rfl, rfl⟩
  · intro hnone
    rw [process_file_none debugNoSend cfg orx origDir origName fs0 hnone]
    exact ⟨rfl, rfl⟩

/-- Witness for c6_cleanup_only_if_output: a provider failure at a
concrete input leaves everything in place. -/
theorem c6_cleanup_only_if_output_witness :
    (process_file false exCfg { exOrx with doc := .raiseOther } "/in" "a.pdf"
      [("/in/a.pdf", .raw 3)]).deletions = [] ∧
    (process_file false exCfg { exOrx with doc := .raiseOther } "/in" "a.pdf"
      [("/in/a.pdf", .raw 3)]).fs =
      (process_file false exCfg { exOrx with doc := .raiseOther } "/in" "a.pdf"
        [("/in/a.pdf", .raw 3)]).fsAfterStages :=
  (c6_cleanup_only_if_output false exCfg { exOrx with doc := .raiseOther }
    "/in" "a.pdf" [("/in/a.pdf", .raw 3)]).1
    [("/in/a.pdf", .raw 3)] "/in/a.pdf" "/tmpd/a_20250101_000000.pdf" "/out/a.pdf"
    (by decide) (by decide)

/-- C7: the claim is right and the code is wrong.  The per-job log handler
is opened at the top of process_file, but close_file_logger is only
reached by the straight-line end of the body; every early return — and
the re-raised quota exception — skips it, leaving the handler attached to
the logger.  The evaluations below exhibit two such paths: a sanitization
failure (the filename "???" cleanses to the empty string) returning False
with the handler still open, and a quota re-raise propagating with the
handler still open.  By contrast, the merge-failure path that reaches the
end does close the handler. -/
theorem c7_log_leak_eval :
    ((process_file true exCfg exOrx "/in" "???" [("/in/???", .raw 7)]).logOpened = true ∧
      (process_file true exCfg exOrx "/in" "???" [("/in/???", .raw 7)]).logClosed = false ∧
      (process_file true exCfg exOrx "/in" "???" [("/in/???", .raw 7)]).retval = .ok false) ∧
    ((process_file false exCfg { exOrx with doc := .raiseQuota } "/in" "a.pdf"
        [("/in/a.pdf", .raw 3)]).logOpened = true ∧
      (process_file false exCfg { exOrx with doc := .raiseQuota } "/in" "a.pdf"
        [("/in/a.pdf", .raw 3)]).logClosed = false ∧
      (process_file false exCfg { exOrx with doc := .raiseQuota } "/in" "a.pdf"
        [("/in/a.pdf", .raw 3)]).retval = .error .quotaExceeded) ∧
    ((process_file false exCfg { exOrx with doc := .raiseOther } "/in" "a.pdf"
        [("/in/a.pdf", .raw 3)]).logClosed = true) := by decide

/-- Configuration for the C8 example: filename translation enabled. -/
def c8Cfg : Config := ⟨"/out", "/tmpd", "/log", "EN-US", true, false, false, false⟩

/-- Oracle for the C8 example: the short-text translator fails with a
RequestError. -/
def c8Orx : Oracles :=
  ⟨"20250101_000000", true, .ok, .done true, false, false, fun _ _ => .error .requestError⟩

/-- Filesystem for the C8 example. -/
def c8Fs : FS := [("/in/My File.pdf", .raw 1)]

/-- C8 counterexample to the claim as frozen: with filename translation
enabled and the short-text translator failing, the output basename is the
original un-sanitized stem "My File" plus the original extension — not
the sanitized basename "My_File.pdf" of the working copy, as the claim
asserts. -/
theorem c8_counterexample :
    (generate_file_path_vars c8Cfg c8Orx c8Fs "/in/My File.pdf").2 =
      some ("/tmpd/My_File.pdf", "/tmpd/My_File_20250101_000000.pdf",
        "/out/My File.pdf") ∧
    pname "/tmpd/My_File.pdf" = "My_File.pdf" ∧
    ("/out/My File.pdf" : String) ≠ "/out/My_File.pdf" := by decide

/-- C8 (amended): when filename translation is enabled and the target
language maps to a short-text code, path derivation always still returns
a complete triplet whose output basename is translate_string of the
original stem (underscores to spaces before the call and back after);
whenever the short-text translator fails with one of the handled errors,
translate_string falls back to the original, un-sanitized stem — so the
output basename is the original stem with the original extension, and the
failure never aborts the job. -/
theorem c8_filename_translation_fallback (cfg : Config) (orx : Oracles)
    (fs : FS) (file_path g input_file_path : String)
    (hflag : cfg.translate_filename = true)
    (hcode : deepl_to_google_code cfg.target_lang = some g)
    (hclean : (get_clean_input_file fs file_path cfg.tmp_dir).2 = some input_file_path) :
    (generate_file_path_vars cfg orx fs file_path).2 =
      some (input_file_path,
        create_tmp_file_path input_file_path cfg.tmp_dir orx.timestamp,
        cfg.output_dir ++ "/" ++
          translate_string orx.gt (pstem file_path) g ++ psuffix file_path) ∧
    (∀ e, orx.gt (underscoreToSpace (pstem file_path)) g = .error e →
      translate_string orx.gt (pstem file_path) g = pstem file_path) := by
  constructor
  · unfold generate_file_path_vars
    simp only [hclean, hflag, hcode, if_true]
  · intro e he
    unfold translate_string
    simp only [he]

/-- Witness for c8_filename_translation_fallback at the concrete C8
example: the triplet is produced and the fallback is the original stem. -/
theorem c8_filename_translation_fallback_witness :
    (generate_file_path_vars c8Cfg c8Orx c8Fs "/in/My File.pdf").2 =
      some ("/tmpd/My_File.pdf", "/tmpd/My_File_20250101_000000.pdf",
        "/out/My File.pdf") ∧
    translate_string c8Orx.gt (pstem "/in/My File.pdf") "en" = "My File" := by
  have h := c8_filename_translation_fallback c8Cfg c8Orx c8Fs "/in/My File.pdf"
    "en" "/tmpd/My_File.pdf" rfl (by decide) (by decide)
  exact ⟨h.1.trans (by decide), (h.2 .requestError rfl).trans (by decide)⟩
